import Mathlib

/-!
Shallow embedding of the invoice test-case generator
(`src/shared/generator.ts`, `src/shared/suppliers.ts`, `src/worker/index.ts`).

Modelling conventions:
* Monetary values, prices and fx rates are rationals (`ℚ`); JavaScript's
  `parseFloat(x.toFixed(2))` is modelled by `round2` below, which follows the
  ECMAScript `toFixed` law exactly (nearest, ties towards the larger integer).
* Calendar dates are integer day numbers (`ℤ`, days since the epoch).
  `new Date("YYYY-MM-DD")` parses to midnight UTC, so millisecond differences
  divided by 86 400 000 are exactly day-number differences, and
  `Date#setDate`-based day addition is integer addition.  `formatDate`
  (`toISOString().split('T')[0]`) is the civil-from-days conversion rendered
  as a zero-padded `YYYY-MM-DD` string.
* Every call to the random source (`randomBetween`, `randomFloat`,
  `getRandomSupplier`, `getRandomNameVariation`, uuid, …) is replaced by an
  explicit draw parameter; the range constraints those primitives guarantee
  (`randomBetween(a,b) ∈ [a,b]`, `randomFloat(a,b) ∈ [a,b]`) appear as
  hypotheses of the theorems.
-/

/-- Model of `parseFloat(x.toFixed(2))`: round to the nearest multiple of
`1/100`; on ties ECMAScript picks the larger integer `n`, which is exactly
Mathlib's `round` (`⌊x + 1/2⌋`). -/
def round2 (x : ℚ) : ℚ := (round (100 * x) : ℤ) / 100

theorem round2_intCast (n : ℤ) : round2 ((n : ℚ) / 100) = (n : ℚ) / 100 := by
  unfold round2
  have h : (100 : ℚ) * ((n : ℚ) / 100) = (n : ℚ) := by ring
  rw [h, round_intCast]

theorem round2_sub_le (x : ℚ) : |x - round2 x| ≤ 1 / 200 := by
  unfold round2
  have h := abs_sub_round (100 * x)
  have heq : x - (round (100 * x) : ℚ) / 100 = (100 * x - (round (100 * x) : ℚ)) / 100 := by
    ring
  rw [heq, abs_div, abs_of_pos (show (0:ℚ) < 100 by norm_num)]
  linarith

theorem round2_ge (x : ℚ) : x - 1 / 200 ≤ round2 x := by
  have h := round2_sub_le x
  have := abs_le.mp h
  linarith [this.1, this.2]

theorem round2_le_add (x : ℚ) : round2 x ≤ x + 1 / 200 := by
  have h := round2_sub_le x
  have := abs_le.mp h
  linarith [this.1, this.2]

theorem round2_mono {x y : ℚ} (h : x ≤ y) : round2 x ≤ round2 y := by
  unfold round2
  have hr : round (100 * x) ≤ round (100 * y) := by
    rw [round_eq, round_eq]
    exact Int.floor_mono (by linarith)
  have : ((round (100 * x) : ℤ) : ℚ) ≤ ((round (100 * y) : ℤ) : ℚ) := by exact_mod_cast hr
  linarith

/-- `round2` always lands on an integer number of cents. -/
def IsCent (x : ℚ) : Prop := ∃ k : ℤ, x = (k : ℚ) / 100

theorem isCent_round2 (x : ℚ) : IsCent (round2 x) := ⟨round (100 * x), rfl⟩

theorem isCent_add {x y : ℚ} (hx : IsCent x) (hy : IsCent y) : IsCent (x + y) := by
  obtain ⟨a, ha⟩ := hx
  obtain ⟨b, hb⟩ := hy
  exact ⟨a + b, by rw [ha, hb]; push_cast; ring⟩

theorem isCent_zero : IsCent 0 := ⟨0, by norm_num⟩

theorem isCent_neg {x : ℚ} (hx : IsCent x) : IsCent (-x) := by
  obtain ⟨a, ha⟩ := hx
  exact ⟨-a, by rw [ha]; push_cast; ring⟩

theorem round2_of_isCent {x : ℚ} (hx : IsCent x) : round2 x = x := by
  obtain ⟨k, hk⟩ := hx
  rw [hk, round2_intCast]

theorem round2_nonneg {x : ℚ} (h : 0 ≤ x) : 0 ≤ round2 x := by
  have h0 : round2 0 = 0 := by
    have := round2_of_isCent isCent_zero
    simpa using this
  calc (0 : ℚ) = round2 0 := h0.symm
    _ ≤ round2 x := round2_mono h

/-- Key rounding-discrepancy bound: rounding the two partial sums and the
grand sum independently moves the grand total by at most one cent. -/
theorem round2_sum_close (S T : ℚ) :
    |round2 (S + T) - (round2 S + round2 T)| ≤ 1 / 100 := by
  set a := round (100 * S) with ha
  set b := round (100 * T) with hb
  set c := round (100 * (S + T)) with hc
  have h1 : |100 * S - (a : ℚ)| ≤ 1 / 2 := by
    have := abs_sub_round (100 * S)
    simpa [ha] using this
  have h2 : |100 * T - (b : ℚ)| ≤ 1 / 2 := by
    have := abs_sub_round (100 * T)
    simpa [hb] using this
  have h3 : |100 * (S + T) - (c : ℚ)| ≤ 1 / 2 := by
    have := abs_sub_round (100 * (S + T))
    simpa [hc] using this
  have habs : |((c - a - b : ℤ) : ℚ)| ≤ 3 / 2 := by
    have heq : ((c - a - b : ℤ) : ℚ) =
        (100 * (S + T) - (c : ℚ)) * (-1) + (100 * S - (a : ℚ)) + (100 * T - (b : ℚ)) := by
      push_cast
      ring
    rw [heq]
    calc |(100 * (S + T) - (c : ℚ)) * (-1) + (100 * S - (a : ℚ)) + (100 * T - (b : ℚ))|
        ≤ |(100 * (S + T) - (c : ℚ)) * (-1) + (100 * S - (a : ℚ))| + |100 * T - (b : ℚ)| :=
          abs_add _ _
      _ ≤ |(100 * (S + T) - (c : ℚ)) * (-1)| + |100 * S - (a : ℚ)| + |100 * T - (b : ℚ)| := by
          have := abs_add ((100 * (S + T) - (c : ℚ)) * (-1)) (100 * S - (a : ℚ))
          linarith
      _ ≤ 3 / 2 := by
          rw [abs_mul]
          simp only [abs_neg, abs_one, mul_one]
          linarith
  have hint : |c - a - b| ≤ 1 := by
    by_contra hcon
    push_neg at hcon
    have htwo : (2 : ℤ) ≤ |c - a - b| := hcon
    have hcast : ((2 : ℤ) : ℚ) ≤ ((|c - a - b| : ℤ) : ℚ) := by exact_mod_cast htwo
    rw [Int.cast_abs] at hcast
    norm_num at hcast
    push_cast at habs
    linarith
  have hq : |((c - a - b : ℤ) : ℚ)| ≤ 1 := by
    rw [← Int.cast_abs]
    exact_mod_cast hint
  unfold round2
  rw [← ha, ← hb, ← hc]
  have heq2 : (c : ℚ) / 100 - ((a : ℚ) / 100 + (b : ℚ) / 100) = ((c - a - b : ℤ) : ℚ) / 100 := by
    push_cast
    ring
  rw [heq2, abs_div]
  rw [abs_of_pos (show (0:ℚ) < 100 by norm_num)]
  linarith

/-! ### Data model (`src/shared/types.ts`) -/

/-- `TransactionDirection` from `types.ts`. -/
inductive TransactionDirection
  | payables
  | receivables
deriving DecidableEq, Inhabited, Repr

/-- `TestCaseType` from `types.ts` (10 enumerated case types). -/
inductive TestCaseType
  | perfect_match
  | discount_1_percent
  | discount_2_percent
  | discount_3_percent
  | fx_gain
  | fx_loss
  | partial_match_no_description
  | partial_match_amount_mismatch
  | partial_match_date_far
  | group_payment
deriving DecidableEq, Inhabited, Repr

structure Company where
  name : String
  address : String
  phone : String
  email : String
  website : String
  bankName : String
  iban : String
  vatId : String
deriving DecidableEq, Inhabited, Repr

/-- `Partial<Company>` (every field optional), as spread over a base record
by `{ ...DEFAULT_COMPANY, ...companyOverrides }`. -/
structure CompanyOverride where
  name : Option String := none
  address : Option String := none
  phone : Option String := none
  email : Option String := none
  website : Option String := none
  bankName : Option String := none
  iban : Option String := none
  vatId : Option String := none
deriving DecidableEq, Inhabited, Repr

/-- JavaScript object spread `{ ...base, ...ov }` where `ov` may be absent
(`undefined` spreads to nothing). -/
def spreadCompany (base : Company) (ov : Option CompanyOverride) : Company :=
  match ov with
  | none => base
  | some o =>
    { name := o.name.getD base.name
      address := o.address.getD base.address
      phone := o.phone.getD base.phone
      email := o.email.getD base.email
      website := o.website.getD base.website
      bankName := o.bankName.getD base.bankName
      iban := o.iban.getD base.iban
      vatId := o.vatId.getD base.vatId }

structure InvoiceItem where
  name : String
  quantity : ℕ
  price : ℚ
  tax : ℚ
deriving DecidableEq, Inhabited, Repr

/-- `Invoice` from `types.ts`; `date`/`dueDate` are kept as day numbers
(the source stores their `YYYY-MM-DD` rendering, see `formatDate`). -/
structure Invoice where
  id : String
  number : String
  date : ℤ
  dueDate : ℤ
  supplier : Company
  customer : Company
  items : List InvoiceItem
  subtotal : ℚ
  taxTotal : ℚ
  total : ℚ
  currency : String
  note : String
deriving DecidableEq, Inhabited, Repr

structure BankTransaction where
  date : String
  counterparty : String
  description : String
  amount_eur : ℚ
deriving DecidableEq, Inhabited, Repr

/-- `TestCase['metadata']`; optional source fields are `Option`s. -/
structure CaseMetadata where
  originalAmount : ℚ
  adjustedAmount : ℚ
  adjustmentReason : Option String := none
  discountPercent : Option ℕ := none
  fxRate : Option ℚ := none
  matchingFields : List String := []
  mismatchedFields : List String := []
  groupedInvoiceCount : Option ℕ := none
deriving DecidableEq, Inhabited, Repr

structure TestCase where
  id : String
  type : TestCaseType
  direction : TransactionDirection
  invoice : Invoice
  invoices : Option (List Invoice) := none
  transaction : BankTransaction
  metadata : CaseMetadata
deriving DecidableEq, Inhabited, Repr

structure TestCaseConfig where
  type : TestCaseType
  label : String
  description : String
  quantity : ℕ
deriving DecidableEq, Inhabited, Repr

structure GeneratedTestSuite where
  id : String
  createdAt : String
  direction : TransactionDirection
  cases : List TestCase
  csvContent : String
deriving DecidableEq, Inhabited, Repr

/-! ### String and date utilities (`generator.ts` lines 32-55) -/

/-- Left-pad a string with `'0'` up to width `w` (`String.padStart(w, '0')`). -/
def padZero (w : ℕ) (s : String) : String :=
  if s.length < w then String.mk (List.replicate (w - s.length) '0') ++ s else s

def pad2 (n : ℤ) : String := padZero 2 (toString n)

def pad4nat (n : ℕ) : String := padZero 4 (toString n)

/-- Civil calendar date from a day number (days since 1970-01-01), the
standard days-to-civil algorithm; used to model `Date#toISOString` and
`Date#getFullYear` on UTC dates. -/
def civilFromDays (z0 : ℤ) : ℤ × ℤ × ℤ :=
  let z := z0 + 719468
  let era := Int.fdiv z 146097
  let doe := Int.fmod z 146097
  let yoe := (doe - doe / 1460 + doe / 36524 - doe / 146096) / 365
  let y := yoe + era * 400
  let doy := doe - (365 * yoe + yoe / 4 - yoe / 100)
  let mp := (5 * doy + 2) / 153
  let d := doy - (153 * mp + 2) / 5 + 1
  let m := mp + (if mp < 10 then 3 else -9)
  (y + (if m ≤ 2 then 1 else 0), m, d)

/-- `formatDate`: `date.toISOString().split('T')[0]`, i.e. `YYYY-MM-DD`. -/
def formatDate (day : ℤ) : String :=
  let c := civilFromDays day
  padZero 4 (toString c.1) ++ "-" ++ pad2 c.2.1 ++ "-" ++ pad2 c.2.2

/-- `date.getFullYear()` for a UTC midnight date. -/
def yearOf (day : ℤ) : ℤ := (civilFromDays day).1

/-- `addDays` (`Date#setDate` day arithmetic) is day-number addition. -/
def addDays (day : ℤ) (days : ℤ) : ℤ := day + days

/-- `generateInvoiceNumber` (`generator.ts` line 52). -/
def generateInvoiceNumber (year : ℤ) (sequence : ℕ) (direction : TransactionDirection) : String :=
  let pfx := if direction = .receivables then "INV" else "BILL"
  pfx ++ "-" ++ toString year ++ "-" ++ pad4nat sequence

/-- Fixed-point rendering `x.toFixed(4)` for the fx-rate strings. -/
def toFixed4 (q : ℚ) : String :=
  let n := round (q * 10000)
  let core : ℕ → String := fun m => toString (m / 10000) ++ "." ++ padZero 4 (toString (m % 10000))
  if n < 0 then "-" ++ core (-n).toNat else core n.toNat

/-- JavaScript template-literal rendering of an `amount_eur` value.  All
amounts the generator emits are integer numbers of cents (`IsCent`), and on
that domain `Number#toString` prints the integer part and the minimal
fractional digits, which is what this renders. -/
def jsNumRepr (q : ℚ) : String :=
  let n := round (100 * q)
  let core : ℕ → String := fun m =>
    toString (m / 100) ++
      (if m % 100 = 0 then ""
       else if m % 10 = 0 then "." ++ toString (m % 100 / 10)
       else "." ++ padZero 2 (toString (m % 100)))
  if n < 0 then "-" ++ core (-n).toNat else core n.toNat

/-! ### Invoice synthesis (`generator.ts` lines 57-133) -/

/-- One iteration of `generateInvoiceItems`'s body, with the three random
draws (product base price/name, price variation, quantity, tax pick) made
explicit.  `tax = randomBetween(0,2) === 0 ? 0 : 19`. -/
structure ItemDraw where
  name : String
  basePrice : ℚ
  priceVariation : ℚ
  quantity : ℕ
  taxPick : ℕ
deriving DecidableEq, Inhabited, Repr

/-- `generateInvoiceItems` (`generator.ts` line 58): one item per draw. -/
def generateInvoiceItems (draws : List ItemDraw) : List InvoiceItem :=
  draws.map fun d =>
    { name := d.name
      quantity := d.quantity
      price := round2 (d.basePrice * d.priceVariation)
      tax := if d.taxPick = 0 then 0 else 19 }

/-- `calculateInvoiceTotals` (`generator.ts` line 75): accumulate the raw
subtotal and tax sums over the items, then round each of the three results
independently.  Returns `(subtotal, taxTotal, total)`. -/
def calculateInvoiceTotals (items : List InvoiceItem) : ℚ × ℚ × ℚ :=
  let sums := items.foldl
    (fun (acc : ℚ × ℚ) item =>
      (acc.1 + (item.quantity : ℚ) * item.price,
       acc.2 + ((item.quantity : ℚ) * item.price * item.tax) / 100))
    (0, 0)
  (round2 sums.1, round2 sums.2, round2 (sums.1 + sums.2))

/-- Random draws consumed by one `generateInvoice` call: the issue-date
offset `randomBetween(0, daysDiff)`, the payment-term offset
`randomBetween(14, 30)`, the item draws (`randomBetween(1,5)` items) and the
uuid. -/
structure InvoiceDraw where
  id : String
  randomDays : ℤ
  dueOffset : ℤ
  items : List ItemDraw
deriving DecidableEq, Inhabited, Repr

/-- `daysDiff` computed in `generateInvoice` (line 105): for midnight-UTC
dates the millisecond quotient is exactly the day-number difference. -/
def daysDiff (startDay endDay : ℤ) : ℤ := endDay - startDay

/-- `generateInvoice` (`generator.ts` line 98). -/
def generateInvoice (startDay : ℤ) (supplier customer : Company)
    (invoiceSequence : ℕ) (direction : TransactionDirection)
    (draw : InvoiceDraw) : Invoice :=
  let invoiceDate := addDays startDay draw.randomDays
  let dueDate := addDays invoiceDate draw.dueOffset
  let items := generateInvoiceItems draw.items
  let totals := calculateInvoiceTotals items
  let note := if direction = .receivables
    then "Thank you for your business. Payment due within the specified terms."
    else "Please process payment by the due date. Thank you."
  { id := draw.id
    number := generateInvoiceNumber (yearOf invoiceDate) invoiceSequence direction
    date := invoiceDate
    dueDate := dueDate
    supplier := supplier
    customer := customer
    items := items
    subtotal := totals.1
    taxTotal := totals.2.1
    total := totals.2.2
    currency := "EUR"
    note := note }

/-! ### Case-type policy engine (`generator.ts` lines 135-281) -/

/-- Random draws consumed by one `generateTransaction` call: the
transaction-date offset, the rate/factor draw used by the fx and
amount-mismatch branches, the counterparty string produced by
`getRandomNameVariation`, and the generic description drawn by
`getRandomGenericDescription`. -/
structure TxnDraw where
  offset : ℤ
  rate : ℚ
  counterparty : String
  genericDesc : String
deriving DecidableEq, Inhabited, Repr

/-- `generateTransaction` (`generator.ts` line 136): the full `switch` on the
case type.  The counterparty is the name-variation draw of the supplier
(payables) or customer (receivables); the sign is `-1` for payables and `+1`
for receivables. -/
def generateTransaction (invoice : Invoice) (type : TestCaseType)
    (direction : TransactionDirection) (draw : TxnDraw) :
    BankTransaction × CaseMetadata :=
  let invoiceDate := invoice.date
  let baseMeta : CaseMetadata :=
    { originalAmount := invoice.total
      adjustedAmount := invoice.total
      matchingFields := []
      mismatchedFields := [] }
  let counterparty := draw.counterparty
  let amountSign : ℚ := if direction = .payables then -1 else 1
  let result : ℤ × ℚ × String × CaseMetadata :=
    match type with
    | .perfect_match =>
      (addDays invoiceDate draw.offset,
       amountSign * invoice.total,
       invoice.number ++ " Payment",
       { baseMeta with
          matchingFields := ["counterparty", "amount", "invoice_number", "date_proximity"] })
    | .discount_1_percent =>
      let amount := amountSign * round2 (invoice.total * (99 / 100))
      (addDays invoiceDate draw.offset,
       amount,
       invoice.number ++ " Payment 1% early discount",
       { baseMeta with
          adjustedAmount := |amount|
          discountPercent := some 1
          adjustmentReason := some "1% early payment discount"
          matchingFields := ["counterparty", "invoice_number", "date_proximity"]
          mismatchedFields := ["amount (1% discount applied)"] })
    | .discount_2_percent =>
      let amount := amountSign * round2 (invoice.total * (98 / 100))
      (addDays invoiceDate draw.offset,
       amount,
       invoice.number ++ " Payment 2% early discount",
       { baseMeta with
          adjustedAmount := |amount|
          discountPercent := some 2
          adjustmentReason := some "2% early payment discount"
          matchingFields := ["counterparty", "invoice_number", "date_proximity"]
          mismatchedFields := ["amount (2% discount applied)"] })
    | .discount_3_percent =>
      let amount := amountSign * round2 (invoice.total * (97 / 100))
      (addDays invoiceDate draw.offset,
       amount,
       invoice.number ++ " Payment 3% early discount",
       { baseMeta with
          adjustedAmount := |amount|
          discountPercent := some 3
          adjustmentReason := some "3% early payment discount"
          matchingFields := ["counterparty", "invoice_number", "date_proximity"]
          mismatchedFields := ["amount (3% discount applied)"] })
    | .fx_gain =>
      let gainRate := draw.rate
      let gainMultiplier := if direction = .payables then gainRate else 2 - gainRate
      let amount := amountSign * round2 (invoice.total * gainMultiplier)
      (addDays invoiceDate draw.offset,
       amount,
       invoice.number ++ " FX Payment",
       { baseMeta with
          adjustedAmount := |amount|
          fxRate := some gainRate
          adjustmentReason := some ("FX gain (rate: " ++ toFixed4 gainRate ++ ")")
          matchingFields := ["counterparty", "invoice_number"]
          mismatchedFields := ["amount (FX gain)"] })
    | .fx_loss =>
      let lossRate := draw.rate
      let lossMultiplier := if direction = .payables then lossRate else 2 - lossRate
      let amount := amountSign * round2 (invoice.total * lossMultiplier)
      (addDays invoiceDate draw.offset,
       amount,
       invoice.number ++ " FX Payment",
       { baseMeta with
          adjustedAmount := |amount|
          fxRate := some lossRate
          adjustmentReason := some ("FX loss (rate: " ++ toFixed4 lossRate ++ ")")
          matchingFields := ["counterparty", "invoice_number"]
          mismatchedFields := ["amount (FX loss)"] })
    | .partial_match_no_description =>
      (addDays invoiceDate draw.offset,
       amountSign * invoice.total,
       draw.genericDesc,
       { baseMeta with
          matchingFields := ["counterparty", "amount", "date_proximity"]
          mismatchedFields := ["description (no invoice number)"] })
    | .partial_match_amount_mismatch =>
      let mismatchFactor := draw.rate
      let amount := amountSign * round2 (invoice.total * mismatchFactor)
      (addDays invoiceDate draw.offset,
       amount,
       invoice.number ++ " Payment",
       { baseMeta with
          adjustedAmount := |amount|
          adjustmentReason := some "Unknown amount difference (possible fees or rounding)"
          matchingFields := ["counterparty", "invoice_number", "date_proximity"]
          mismatchedFields := ["amount (small unexplained difference)"] })
    | .partial_match_date_far =>
      (addDays invoiceDate draw.offset,
       amountSign * invoice.total,
       invoice.number ++ " Late Payment",
       { baseMeta with
          matchingFields := ["counterparty", "amount", "invoice_number"]
          mismatchedFields := ["date (30+ days after invoice)"] })
    | .group_payment =>
      (addDays invoiceDate draw.offset,
       amountSign * invoice.total,
       invoice.number ++ " Payment",
       { baseMeta with
          matchingFields := ["counterparty", "amount", "invoice_number", "date_proximity"] })
  ({ date := formatDate result.1
     counterparty := counterparty
     description := result.2.2.1
     amount_eur := result.2.1 },
   result.2.2.2)

/-! ### Test-case assembly (`generator.ts` lines 20-30, 283-456) -/

/-- `DEFAULT_COMPANY` (`generator.ts` line 21). -/
def DEFAULT_COMPANY : Company :=
  { name := "Acme Corporation GmbH"
    address := "Musterstrasse 123, 10115 Berlin, Germany"
    phone := "+49 30 555 1234"
    email := "accounting@acme-corp.de"
    website := "www.acme-corp.de"
    bankName := "Deutsche Bank AG"
    iban := "DE89370400440532013001"
    vatId := "DE987654321" }

/-- Random draws consumed by one unit of the assembler loop: the uuid, the
`getRandomSupplier()` result, the invoice draws (one for a simple case,
`randomBetween(2,3)` of them — the list length — for a group case) and the
transaction draws. -/
structure UnitDraw where
  id : String
  otherParty : Company
  invoiceDraws : List InvoiceDraw
  txn : TxnDraw
deriving DecidableEq, Inhabited, Repr

/-- `generateTestCase` (`generator.ts` line 284). -/
def generateTestCase (type : TestCaseType) (direction : TransactionDirection)
    (startDay : ℤ) (ourCompany : Company) (invoiceSequence : ℕ)
    (draw : UnitDraw) : TestCase :=
  let otherParty := draw.otherParty
  let supplier := if direction = .payables then otherParty else ourCompany
  let customer := if direction = .payables then ourCompany else otherParty
  let invoice := generateInvoice startDay supplier customer invoiceSequence direction
    (draw.invoiceDraws.headD default)
  let tm := generateTransaction invoice type direction draw.txn
  { id := draw.id
    type := type
    direction := direction
    invoice := invoice
    invoices := none
    transaction := tm.1
    metadata := tm.2 }

/-- The `for (let i = 0; i < invoiceCount; i++)` loop of
`generateGroupPaymentTestCase` (line 329): one invoice per draw, with the
sequence number advancing by one each iteration. -/
def genGroupInvoices (startDay : ℤ) (supplier customer : Company)
    (direction : TransactionDirection) : ℕ → List InvoiceDraw → List Invoice
  | _, [] => []
  | seq, d :: ds =>
    generateInvoice startDay supplier customer seq direction d ::
      genGroupInvoices startDay supplier customer direction (seq + 1) ds

/-- `generateGroupPaymentTestCase` (`generator.ts` line 312).  The drawn
`invoiceCount = randomBetween(2,3)` is the length of `draw.invoiceDraws`.
Returns `(testCase, invoicesGenerated)`. -/
def generateGroupPaymentTestCase (direction : TransactionDirection)
    (startDay : ℤ) (ourCompany : Company) (startingSequence : ℕ)
    (draw : UnitDraw) : TestCase × ℕ :=
  let otherParty := draw.otherParty
  let supplier := if direction = .payables then otherParty else ourCompany
  let customer := if direction = .payables then ourCompany else otherParty
  let invoiceCount := draw.invoiceDraws.length
  let invoices := genGroupInvoices startDay supplier customer direction
    startingSequence draw.invoiceDraws
  let totalAmount := invoices.foldl (fun sum inv => sum + inv.total) 0
  let amountSign : ℚ := if direction = .payables then -1 else 1
  let latestInvoiceDate := invoices.foldl
    (fun latest inv => if latest < inv.date then inv.date else latest)
    (invoices.headD default).date
  let transactionDate := addDays latestInvoiceDate draw.txn.offset
  let invoiceNumbers := ", ".intercalate (invoices.map (·.number))
  let descr := "Batch Payment: " ++ invoiceNumbers
  let counterparty := draw.txn.counterparty
  let transaction : BankTransaction :=
    { date := formatDate transactionDate
      counterparty := counterparty
      description := descr
      amount_eur := round2 (amountSign * totalAmount) }
  let metadata : CaseMetadata :=
    { originalAmount := round2 totalAmount
      adjustedAmount := round2 totalAmount
      matchingFields := ["counterparty", "total_amount", "invoice_numbers", "date_proximity"]
      mismatchedFields := []
      groupedInvoiceCount := some invoiceCount
      adjustmentReason := some ("Group payment covering " ++ toString invoiceCount ++ " invoices") }
  ({ id := draw.id
     type := .group_payment
     direction := direction
     invoice := invoices.headD default
     invoices := some invoices
     transaction := transaction
     metadata := metadata },
   invoiceCount)

/-! ### CSV serialization (`generator.ts` lines 384-400) -/

/-- One CSV row: `` `${date};${counterparty};${description};${amount_eur}` ``. -/
def rowOf (t : BankTransaction) : String :=
  t.date ++ ";" ++ t.counterparty ++ ";" ++ t.description ++ ";" ++ jsNumRepr t.amount_eur

/-- `row.split(';')[0]`: everything before the first semicolon. -/
def dateKey (row : String) : String := String.mk (row.data.takeWhile (· ≠ ';'))

/-- Code-point lexicographic comparison of character lists. -/
def lexLE : List Char → List Char → Bool
  | [], _ => true
  | _ :: _, [] => false
  | a :: as, b :: bs =>
    if a.toNat < b.toNat then true
    else if b.toNat < a.toNat then false
    else lexLE as bs

theorem lexLE_refl (x : List Char) : lexLE x x = true := by
  induction x with
  | nil => rfl
  | cons a as ih => simp [lexLE, ih]

theorem lexLE_total (x y : List Char) : lexLE x y = true ∨ lexLE y x = true := by
  induction x generalizing y with
  | nil => exact Or.inl rfl
  | cons a as ih =>
    cases y with
    | nil => exact Or.inr rfl
    | cons b bs =>
      by_cases hab : a.toNat < b.toNat
      · left
        simp [lexLE, hab]
      · by_cases hba : b.toNat < a.toNat
        · right
          simp [lexLE, hba]
        · rcases ih bs with h | h
          · left
            simp [lexLE, hab, hba, h]
          · right
            simp [lexLE, hab, hba, h]

theorem lexLE_trans {x y z : List Char} (h1 : lexLE x y = true) (h2 : lexLE y z = true) :
    lexLE x z = true := by
  induction x generalizing y z with
  | nil => rfl
  | cons a as ih =>
    cases y with
    | nil => simp [lexLE] at h1
    | cons b bs =>
      cases z with
      | nil => simp [lexLE] at h2
      | cons c cs =>
        simp only [lexLE] at h1 h2 ⊢
        rcases Nat.lt_trichotomy a.toNat b.toNat with hab | hab | hab
        · rcases Nat.lt_trichotomy b.toNat c.toNat with hbc | hbc | hbc
          · have hac : a.toNat < c.toNat := hab.trans hbc
            simp [hac]
          · have hac : a.toNat < c.toNat := hbc ▸ hab
            simp [hac]
          · simp [Nat.lt_asymm hbc, hbc] at h2
        · have h1' : lexLE as bs = true := by
            simpa [hab, Nat.lt_irrefl] using h1
          rcases Nat.lt_trichotomy b.toNat c.toNat with hbc | hbc | hbc
          · have hac : a.toNat < c.toNat := hab ▸ hbc
            simp [hac]
          · have h2' : lexLE bs cs = true := by
              simpa [hbc, Nat.lt_irrefl] using h2
            have hac : a.toNat = c.toNat := hab.trans hbc
            simp only [hac, Nat.lt_irrefl, if_false]
            exact ih h1' h2'
          · simp [Nat.lt_asymm hbc, hbc] at h2
        · simp [Nat.lt_asymm hab, hab] at h1

/-- The sort comparator `(a, b) => a.split(';')[0].localeCompare(b.split(';')[0])`,
with `localeCompare` on the fixed-width ASCII `YYYY-MM-DD` keys modelled as
code-point lexicographic order. -/
def rowLE (a b : String) : Prop := lexLE (dateKey a).data (dateKey b).data = true

instance : DecidableRel rowLE := fun _a _b => inferInstanceAs (Decidable (_ = true))

instance : IsTotal String rowLE := ⟨fun a b => lexLE_total (dateKey a).data (dateKey b).data⟩

instance : IsTrans String rowLE := ⟨fun _x _y _z h1 h2 => lexLE_trans h1 h2⟩

/-- `generateCSV` (`generator.ts` line 385): one row per test case, sorted by
the date field.  `Array#sort` is a stable sort keyed by the comparator; it is
modelled by `List.insertionSort`, which is stable (proved below). -/
def generateCSV (testCases : List TestCase) : String :=
  let header := "date;counterparty;description;amount_eur"
  let rows := testCases.map fun tc => rowOf tc.transaction
  let sortedRows := List.insertionSort rowLE rows
  "\n".intercalate (header :: sortedRows)

/-! ### Suite assembly (`generator.ts` lines 403-456) -/

/-- The nested `for` loops of `generateTestSuite` flattened to the exact unit
sequence they execute: all `config.quantity` units of each config in order.
Each unit consumes one `UnitDraw`; a group unit advances the invoice
sequence by the number of invoices it generated, a simple unit by one. -/
def runUnits (direction : TransactionDirection) (startDay : ℤ)
    (ourCompany : Company) : List TestCaseType → ℕ → List UnitDraw → List TestCase
  | [], _, _ => []
  | t :: rest, seq, draws =>
    let ud := draws.headD default
    if t = .group_payment then
      let r := generateGroupPaymentTestCase direction startDay ourCompany seq ud
      r.1 :: runUnits direction startDay ourCompany rest (seq + r.2) draws.tail
    else
      generateTestCase t direction startDay ourCompany seq ud ::
        runUnits direction startDay ourCompany rest (seq + 1) draws.tail

/-- The unit sequence executed by the two nested loops. -/
def unitsOf (configs : List TestCaseConfig) : List TestCaseType :=
  configs.flatMap fun c => List.replicate c.quantity c.type

/-- `generateTestSuite` (`generator.ts` line 403).  `suiteId`, `createdAt`,
the starting sequence `randomBetween(100,999)` and the per-unit draws are
the explicit random/clock inputs. -/
def generateTestSuite (configs : List TestCaseConfig)
    (direction : TransactionDirection) (startDay endDay : ℤ)
    (companyOverrides : Option CompanyOverride)
    (suiteId createdAt : String) (seq0 : ℕ) (draws : List UnitDraw) :
    GeneratedTestSuite :=
  let ourCompany := spreadCompany DEFAULT_COMPANY companyOverrides
  let _ := daysDiff startDay endDay
  let testCases := runUnits direction startDay ourCompany (unitsOf configs) seq0 draws
  { id := suiteId
    createdAt := createdAt
    direction := direction
    cases := testCases
    csvContent := generateCSV testCases }

/-! ### Name variations (`src/shared/suppliers.ts` lines 56-95) -/

/-- `String.prototype.toUpperCase` on the ASCII business names. -/
def toUpperStr (s : String) : String := s.map Char.toUpper

/-- Accumulator loop behind `baseName.split(/(?=[A-Z])|\s+/)`: a token ends
at whitespace (consumed) or before an uppercase letter.  Generated business
names are capitalized, single-space-separated words, for which this agrees
with the JavaScript split.  `cur` is the reversed pending token. -/
def splitCapWSAux : List Char → List Char → List String
  | [], cur => [String.mk cur.reverse]
  | c :: cs, cur =>
    if c = ' ' then String.mk cur.reverse :: splitCapWSAux cs []
    else if c.isUpper ∧ cur ≠ [] then String.mk cur.reverse :: splitCapWSAux cs [c]
    else splitCapWSAux cs (c :: cur)

def splitCapWS (s : String) : List String := splitCapWSAux s.data []

/-- `baseName.replace(/([a-z])([A-Z])/g, '$1 $2')`: insert a space at each
lowercase-to-uppercase boundary. -/
def deCamelAux : List Char → List Char
  | [] => []
  | [c] => [c]
  | c1 :: c2 :: rest =>
    if c1.isLower ∧ c2.isUpper then c1 :: ' ' :: deCamelAux (c2 :: rest)
    else c1 :: deCamelAux (c2 :: rest)

def deCamel (s : String) : String := String.mk (deCamelAux s.data)

/-- `legalSuffix.replace(/\./g, '')`. -/
def removeDots (s : String) : String := String.mk (s.data.filter (· ≠ '.'))

/-- `[...new Set(variations)]`: de-duplicate keeping first occurrences. -/
def dedupFirst : List String → List String
  | [] => []
  | a :: l => a :: dedupFirst (l.filter (· ≠ a))
termination_by l => l.length
decreasing_by
  simpa using Nat.lt_succ_of_le (List.length_filter_le _ _)

/-- `generateNameVariations` (`suppliers.ts` line 56). -/
def generateNameVariations (baseName legalSuffix : String) : List String :=
  let fullName := baseName ++ " " ++ legalSuffix
  let base : List String := [toUpperStr fullName, baseName, toUpperStr baseName]
  let abbrevStr := toUpperStr (String.join ((splitCapWS baseName).map (·.take 1)))
  let withAbbrev : List String :=
    if abbrevStr.length ≥ 2 then [abbrevStr, abbrevStr ++ " " ++ legalSuffix] else []
  let spaced := deCamel baseName
  let withSpaced : List String :=
    if spaced ≠ baseName then [spaced, spaced ++ " " ++ legalSuffix] else []
  let cleanSuffix := removeDots legalSuffix
  let withClean : List String :=
    if cleanSuffix ≠ legalSuffix then [baseName ++ " " ++ cleanSuffix] else []
  let withTrunc : List String :=
    if baseName.length > 10 then [toUpperStr (baseName.take 10)] else []
  dedupFirst (base ++ withAbbrev ++ withSpaced ++ withClean ++ withTrunc)

/-! ### PDF data conversion (`generator.ts` lines 458-528) -/

structure PDFCompany where
  logo : String
  name : String
  address : String
  phone : String
  email : String
  website : String
  bank : String
deriving DecidableEq, Inhabited, Repr

structure PDFCustomer where
  name : String
  address : String
  phone : String
  email : String
deriving DecidableEq, Inhabited, Repr

/-- The `invoice` block of the PDF package.  `number` is
`parseInt(invoice.number.replace(/\D/g, ''), 10)`; `parseInt` returns `NaN`
when no digits can be parsed, modelled as `none`. -/
structure PDFInvoiceBlock where
  number : Option ℤ
  date : ℤ
  dueDate : ℤ
  status : String
  locale : String
  currency : String
deriving DecidableEq, Inhabited, Repr

structure PDFQr where
  data : String
  width : ℕ
deriving DecidableEq, Inhabited, Repr

structure PDFInvoiceData where
  company : PDFCompany
  customer : PDFCustomer
  invoice : PDFInvoiceBlock
  items : List InvoiceItem
  qr : PDFQr
  note : String
deriving DecidableEq, Inhabited, Repr

/-- `invoice.number.replace(/\D/g, '')`: keep only digits. -/
def digitsOnly (s : String) : String := String.mk (s.data.filter Char.isDigit)

def parseDigits (cs : List Char) : Option ℕ :=
  let ds := cs.takeWhile Char.isDigit
  if ds.isEmpty then none
  else some (ds.foldl (fun acc c => 10 * acc + (c.toNat - '0'.toNat)) 0)

/-- `parseInt(s, 10)`: optional sign, then a maximal run of leading digits;
`NaN` (here `none`) when no digit is found. -/
def parseInt10 (s : String) : Option ℤ :=
  match s.data with
  | '-' :: rest => (parseDigits rest).map fun n => -(n : ℤ)
  | '+' :: rest => (parseDigits rest).map fun n => (n : ℤ)
  | rest => (parseDigits rest).map fun n => (n : ℤ)

/-- `invoiceToPDFData` (`generator.ts` line 459). -/
def invoiceToPDFData (invoice : Invoice) : PDFInvoiceData :=
  let invoiceNumber := parseInt10 (digitsOnly invoice.number)
  { company :=
      { logo := ""
        name := invoice.supplier.name
        address := invoice.supplier.address
        phone := invoice.supplier.phone
        email := invoice.supplier.email
        website := invoice.supplier.website
        bank := invoice.supplier.bankName ++ "\nIBAN: " ++ invoice.supplier.iban ++
          "\nVAT ID: " ++ invoice.supplier.vatId }
    customer :=
      { name := invoice.customer.name
        address := invoice.customer.address
        phone := invoice.customer.phone
        email := invoice.customer.email }
    invoice :=
      { number := invoiceNumber
        date := invoice.date
        dueDate := invoice.dueDate
        status := "Due"
        locale := "en-US"
        currency := invoice.currency }
    items := invoice.items
    qr :=
      { data := "Invoice: " ++ invoice.number ++ "\nAmount: " ++ invoice.currency ++ " " ++
          jsNumRepr invoice.total ++ "\nIBAN: " ++ invoice.supplier.iban
        width := 100 }
    note := invoice.note }

/-! ### HTTP request shell (`src/worker/index.ts` lines 20-46) -/

/-- `GenerationRequest` as the handler sees a parsed JSON body: any field may
be absent.  `dateRange.start`/`.end` are modelled as the parsed day numbers
when present.  Note the declared interface names the override field
`customerCompany`, while the handler reads `body.myCompany`. -/
structure GenReq where
  cases : Option (List TestCaseConfig) := none
  direction : Option TransactionDirection := none
  dateRange : Option (Option ℤ × Option ℤ) := none
  myCompany : Option CompanyOverride := none
  customerCompany : Option CompanyOverride := none

/-- The `POST /api/generate` handler: the two validation gates, the
`body.direction || 'payables'` default, and the call to `generateTestSuite`
forwarding `body.myCompany`.  Errors are `(message, HTTP status)`. -/
def handleGenerate (req : GenReq) (suiteId createdAt : String) (seq0 : ℕ)
    (draws : List UnitDraw) : Except (String × ℕ) GeneratedTestSuite :=
  match req.cases with
  | none => .error ("No test cases specified", 400)
  | some cs =>
    if cs.length = 0 then .error ("No test cases specified", 400)
    else
      match req.dateRange with
      | none => .error ("Date range is required", 400)
      | some dr =>
        match dr.1, dr.2 with
        | some startDay, some endDay =>
          .ok (generateTestSuite cs (req.direction.getD .payables) startDay endDay
            req.myCompany suiteId createdAt seq0 draws)
        | _, _ => .error ("Date range is required", 400)

/-! ### Helper lemmas -/

theorem round2_eq_floor (x : ℚ) : round2 x = (⌊100 * x + 1 / 2⌋ : ℚ) / 100 := by
  rw [round2, round_eq]

theorem foldl_pair_totals (f g : InvoiceItem → ℚ) :
    ∀ (l : List InvoiceItem) (a b : ℚ),
      l.foldl (fun acc it => (acc.1 + f it, acc.2 + g it)) (a, b) =
        (a + (l.map f).sum, b + (l.map g).sum)
  | [], a, b => by simp
  | x :: xs, a, b => by
    rw [List.foldl_cons, foldl_pair_totals f g xs]
    simp [add_assoc]

theorem calculateInvoiceTotals_eq (items : List InvoiceItem) :
    calculateInvoiceTotals items =
      (round2 ((items.map fun it => (it.quantity : ℚ) * it.price).sum),
       round2 ((items.map fun it => ((it.quantity : ℚ) * it.price * it.tax) / 100).sum),
       round2 ((items.map fun it => (it.quantity : ℚ) * it.price).sum +
         (items.map fun it => ((it.quantity : ℚ) * it.price * it.tax) / 100).sum)) := by
  unfold calculateInvoiceTotals
  rw [foldl_pair_totals]
  simp

/-- C4: For every generated invoice, `subtotal` is the rounded raw item sum,
`taxTotal` the rounded raw tax sum, and `total` the rounded raw grand sum —
each of the three rounded to 2 decimals independently — and the resulting
`total` differs from `subtotal + taxTotal` by at most `0.01` in absolute
value. -/
theorem invoice_totals_spec (startDay : ℤ) (supplier customer : Company)
    (seq : ℕ) (dir : TransactionDirection) (draw : InvoiceDraw) :
    (generateInvoice startDay supplier customer seq dir draw).subtotal =
      round2 (((generateInvoice startDay supplier customer seq dir draw).items.map
        fun it => (it.quantity : ℚ) * it.price).sum) ∧
    (generateInvoice startDay supplier customer seq dir draw).taxTotal =
      round2 (((generateInvoice startDay supplier customer seq dir draw).items.map
        fun it => ((it.quantity : ℚ) * it.price * it.tax) / 100).sum) ∧
    (generateInvoice startDay supplier customer seq dir draw).total =
      round2 ((((generateInvoice startDay supplier customer seq dir draw).items.map
        fun it => (it.quantity : ℚ) * it.price).sum) +
        (((generateInvoice startDay supplier customer seq dir draw).items.map
          fun it => ((it.quantity : ℚ) * it.price * it.tax) / 100).sum)) ∧
    |(generateInvoice startDay supplier customer seq dir draw).total -
        ((generateInvoice startDay supplier customer seq dir draw).subtotal +
          (generateInvoice startDay supplier customer seq dir draw).taxTotal)| ≤ 1 / 100 := by
  have hitems : (generateInvoice startDay supplier customer seq dir draw).items =
      generateInvoiceItems draw.items := rfl
  have hsub : (generateInvoice startDay supplier customer seq dir draw).subtotal =
      (calculateInvoiceTotals (generateInvoiceItems draw.items)).1 := rfl
  have htax : (generateInvoice startDay supplier customer seq dir draw).taxTotal =
      (calculateInvoiceTotals (generateInvoiceItems draw.items)).2.1 := rfl
  have htot : (generateInvoice startDay supplier customer seq dir draw).total =
      (calculateInvoiceTotals (generateInvoiceItems draw.items)).2.2 := rfl
  rw [hitems, hsub, htax, htot, calculateInvoiceTotals_eq]
  refine ⟨rfl, rfl, rfl, ?_⟩
  exact round2_sum_close _ _

/-- C6: For every generated invoice, the due date is the issue date plus the
drawn payment-term offset `randomBetween(14, 30)`, so the difference in days
lies in `[14, 30]`. -/
theorem invoice_dueDate_spec (startDay : ℤ) (supplier customer : Company)
    (seq : ℕ) (dir : TransactionDirection) (draw : InvoiceDraw)
    (h14 : 14 ≤ draw.dueOffset) (h30 : draw.dueOffset ≤ 30) :
    14 ≤ (generateInvoice startDay supplier customer seq dir draw).dueDate -
        (generateInvoice startDay supplier customer seq dir draw).date ∧
    (generateInvoice startDay supplier customer seq dir draw).dueDate -
        (generateInvoice startDay supplier customer seq dir draw).date ≤ 30 := by
  have hdiff : (generateInvoice startDay supplier customer seq dir draw).dueDate -
      (generateInvoice startDay supplier customer seq dir draw).date = draw.dueOffset := by
    show addDays (addDays startDay draw.randomDays) draw.dueOffset -
      addDays startDay draw.randomDays = draw.dueOffset
    unfold addDays
    ring
  rw [hdiff]
  exact ⟨h14, h30⟩

theorem invoice_dueDate_spec_witness :
    (14 : ℤ) ≤ 21 ∧ (21 : ℤ) ≤ 30 ∧
    (14 ≤ (generateInvoice 0 DEFAULT_COMPANY DEFAULT_COMPANY 100 .payables
        { id := "i1", randomDays := 3, dueOffset := 21, items := [] }).dueDate -
          (generateInvoice 0 DEFAULT_COMPANY DEFAULT_COMPANY 100 .payables
        { id := "i1", randomDays := 3, dueOffset := 21, items := [] }).date ∧
      (generateInvoice 0 DEFAULT_COMPANY DEFAULT_COMPANY 100 .payables
        { id := "i1", randomDays := 3, dueOffset := 21, items := [] }).dueDate -
          (generateInvoice 0 DEFAULT_COMPANY DEFAULT_COMPANY 100 .payables
        { id := "i1", randomDays := 3, dueOffset := 21, items := [] }).date ≤ 30) :=
  ⟨by norm_num, by norm_num,
    invoice_dueDate_spec 0 DEFAULT_COMPANY DEFAULT_COMPANY 100 .payables
      { id := "i1", randomDays := 3, dueOffset := 21, items := [] }
      (by norm_num) (by norm_num)⟩

/-- The discount case type for a percentage `k ∈ {1, 2, 3}`. -/
def discountCaseOf (k : ℕ) : TestCaseType :=
  match k with
  | 1 => .discount_1_percent
  | 2 => .discount_2_percent
  | 3 => .discount_3_percent
  | _ => .perfect_match

/-- C2: For every `discount_k_percent` case (`k ∈ {1,2,3}`) and either
direction, `metadata.adjustedAmount = round2 (total * (1 - k/100))`,
`metadata.discountPercent = k`, and `amount_eur` is that magnitude with a
negative sign for payables and a positive sign for receivables. -/
theorem discount_cases_spec (inv : Invoice) (dir : TransactionDirection)
    (d : TxnDraw) (k : ℕ) (hk : k = 1 ∨ k = 2 ∨ k = 3) (h0 : 0 ≤ inv.total) :
    (generateTransaction inv (discountCaseOf k) dir d).2.adjustedAmount =
      round2 (inv.total * (1 - (k : ℚ) / 100)) ∧
    (generateTransaction inv (discountCaseOf k) dir d).2.discountPercent = some k ∧
    (generateTransaction inv (discountCaseOf k) dir d).1.amount_eur =
      (if dir = .payables then (-1 : ℚ) else 1) * round2 (inv.total * (1 - (k : ℚ) / 100)) := by
  have habs : ∀ x : ℚ, 0 ≤ x →
      |(if dir = .payables then (-1 : ℚ) else 1) * x| = x := by
    intro x hx
    cases dir <;> simp [abs_of_nonneg hx]
  have hnn : ∀ q : ℚ, 0 ≤ q → (0 : ℚ) ≤ round2 (inv.total * q) :=
    fun q hq => round2_nonneg (mul_nonneg h0 hq)
  rcases hk with hk | hk | hk <;> subst hk
  · have h99 : (1 : ℚ) - (1 : ℕ) / 100 = 99 / 100 := by norm_num
    refine ⟨?_, rfl, ?_⟩
    · show |(if dir = .payables then (-1 : ℚ) else 1) * round2 (inv.total * (99 / 100))| = _
      rw [habs _ (hnn _ (by norm_num)), h99]
    · show (if dir = .payables then (-1 : ℚ) else 1) * round2 (inv.total * (99 / 100)) = _
      rw [h99]
  · have h98 : (1 : ℚ) - (2 : ℕ) / 100 = 98 / 100 := by norm_num
    refine ⟨?_, rfl, ?_⟩
    · show |(if dir = .payables then (-1 : ℚ) else 1) * round2 (inv.total * (98 / 100))| = _
      rw [habs _ (hnn _ (by norm_num)), h98]
    · show (if dir = .payables then (-1 : ℚ) else 1) * round2 (inv.total * (98 / 100)) = _
      rw [h98]
  · have h97 : (1 : ℚ) - (3 : ℕ) / 100 = 97 / 100 := by norm_num
    refine ⟨?_, rfl, ?_⟩
    · show |(if dir = .payables then (-1 : ℚ) else 1) * round2 (inv.total * (97 / 100))| = _
      rw [habs _ (hnn _ (by norm_num)), h97]
    · show (if dir = .payables then (-1 : ℚ) else 1) * round2 (inv.total * (97 / 100)) = _
      rw [h97]

/-- Concrete invoice (total `10000.00`) and transaction draw for the C2
witness. -/
def invoiceC2 : Invoice :=
  { id := "inv-w2", number := "BILL-2025-0100", date := 20000, dueDate := 20014,
    supplier := DEFAULT_COMPANY, customer := DEFAULT_COMPANY, items := [],
    subtotal := 10000, taxTotal := 0, total := 10000, currency := "EUR", note := "" }

def txnDrawC2 : TxnDraw :=
  { offset := 2, rate := 0, counterparty := "ACME", genericDesc := "Payment" }

/-- C2 witness: direction `payables`, `discount_2_percent`, invoice total
`10000.00` gives `amount_eur = -9800.00`, `discountPercent = 2`, a
description containing "2% early discount" and an amount entry in
`mismatchedFields`. -/
theorem discount_cases_spec_witness :
    ((2 : ℕ) = 1 ∨ (2 : ℕ) = 2 ∨ (2 : ℕ) = 3) ∧ (0 : ℚ) ≤ invoiceC2.total ∧
    (generateTransaction invoiceC2 (discountCaseOf 2) .payables txnDrawC2).1.amount_eur =
      -9800 ∧
    (generateTransaction invoiceC2 (discountCaseOf 2) .payables txnDrawC2).2.discountPercent =
      some 2 ∧
    (generateTransaction invoiceC2 (discountCaseOf 2) .payables txnDrawC2).1.description =
      "BILL-2025-0100 Payment 2% early discount" ∧
    (generateTransaction invoiceC2 (discountCaseOf 2) .payables txnDrawC2).2.mismatchedFields =
      ["amount (2% discount applied)"] := by
  have h := discount_cases_spec invoiceC2 .payables txnDrawC2 2 (by norm_num)
    (by norm_num [invoiceC2])
  refine ⟨by norm_num, by norm_num [invoiceC2], ?_, h.2.1, rfl, rfl⟩
  rw [h.2.2]
  rw [round2_eq_floor]
  norm_num [invoiceC2]

theorem round2_twenty : round2 (20 : ℚ) = 20 :=
  round2_of_isCent ⟨2000, by norm_num⟩

/-- Lower bound on generated invoice totals: every drawn product has base
price at least 25 (catalog minimum) and price variation at least 0.8, so
every item price is at least 20, and a non-empty item list forces
`total ≥ 20`. -/
theorem generateInvoice_total_ge (startDay : ℤ) (supplier customer : Company)
    (seq : ℕ) (dir : TransactionDirection) (draw : InvoiceDraw)
    (hne : draw.items ≠ [])
    (hval : ∀ it ∈ draw.items,
      25 ≤ it.basePrice ∧ (8 : ℚ) / 10 ≤ it.priceVariation ∧ 1 ≤ it.quantity) :
    20 ≤ (generateInvoice startDay supplier customer seq dir draw).total := by
  have hprice : ∀ dd ∈ draw.items, (20 : ℚ) ≤ round2 (dd.basePrice * dd.priceVariation) := by
    intro dd hdd
    obtain ⟨hbp, hvar, _⟩ := hval dd hdd
    have hraw : (20 : ℚ) ≤ dd.basePrice * dd.priceVariation := by nlinarith
    calc (20 : ℚ) = round2 20 := round2_twenty.symm
      _ ≤ round2 (dd.basePrice * dd.priceVariation) := round2_mono hraw
  have htot : (generateInvoice startDay supplier customer seq dir draw).total =
      (calculateInvoiceTotals (generateInvoiceItems draw.items)).2.2 := rfl
  rw [htot, calculateInvoiceTotals_eq]
  have hmapS : ((generateInvoiceItems draw.items).map fun it => (it.quantity : ℚ) * it.price) =
      draw.items.map fun dd => (dd.quantity : ℚ) * round2 (dd.basePrice * dd.priceVariation) := by
    unfold generateInvoiceItems
    rw [List.map_map]
    rfl
  have hmapT : ((generateInvoiceItems draw.items).map
        fun it => ((it.quantity : ℚ) * it.price * it.tax) / 100) =
      draw.items.map fun dd => ((dd.quantity : ℚ) * round2 (dd.basePrice * dd.priceVariation) *
        (if dd.taxPick = 0 then (0 : ℚ) else 19)) / 100 := by
    unfold generateInvoiceItems
    rw [List.map_map]
    rfl
  rw [hmapS, hmapT]
  obtain ⟨d, ds, hsplit⟩ := List.exists_cons_of_ne_nil hne
  have hS : (20 : ℚ) ≤ (draw.items.map
      fun dd => (dd.quantity : ℚ) * round2 (dd.basePrice * dd.priceVariation)).sum := by
    rw [hsplit]
    rw [List.map_cons, List.sum_cons]
    have hd : d ∈ draw.items := by rw [hsplit]; exact List.mem_cons_self d ds
    obtain ⟨_, _, hq⟩ := hval d hd
    have hq1 : (1 : ℚ) ≤ (d.quantity : ℚ) := by exact_mod_cast hq
    have hp := hprice d hd
    have hhead : (20 : ℚ) ≤ (d.quantity : ℚ) * round2 (d.basePrice * d.priceVariation) := by
      nlinarith
    have hrest : (0 : ℚ) ≤ (ds.map
        fun dd => (dd.quantity : ℚ) * round2 (dd.basePrice * dd.priceVariation)).sum := by
      apply List.sum_nonneg
      intro x hx
      obtain ⟨dd, hdd, hddx⟩ := List.mem_map.mp hx
      have hddmem : dd ∈ draw.items := by rw [hsplit]; exact List.mem_cons_of_mem d hdd
      have hp2 := hprice dd hddmem
      rw [← hddx]
      positivity
    linarith
  have hT : (0 : ℚ) ≤ (draw.items.map
      fun dd => ((dd.quantity : ℚ) * round2 (dd.basePrice * dd.priceVariation) *
        (if dd.taxPick = 0 then (0 : ℚ) else 19)) / 100).sum := by
    apply List.sum_nonneg
    intro x hx
    obtain ⟨dd, hdd, hddx⟩ := List.mem_map.mp hx
    have hp2 := hprice dd hdd
    rw [← hddx]
    have htax : (0 : ℚ) ≤ (if dd.taxPick = 0 then (0 : ℚ) else 19) := by
      by_cases h : dd.taxPick = 0 <;> simp [h]
    positivity
  calc (20 : ℚ) = round2 20 := round2_twenty.symm
    _ ≤ round2 (_ + _) := round2_mono (by linarith)

/-- C1: For every `fx_gain` case generated with direction `receivables`, the
transaction amount equals `round2 (total * (2 - rate))` with
`rate ∈ [0.95, 0.99]` the drawn fx rate, the amount is positive, and it
exceeds the invoice total. -/
theorem fx_gain_receivables_spec (startDay : ℤ) (supplier customer : Company)
    (seq : ℕ) (draw : InvoiceDraw) (d : TxnDraw)
    (hne : draw.items ≠ [])
    (hval : ∀ it ∈ draw.items,
      25 ≤ it.basePrice ∧ (8 : ℚ) / 10 ≤ it.priceVariation ∧ 1 ≤ it.quantity)
    (_hr1 : (95 : ℚ) / 100 ≤ d.rate) (hr2 : d.rate ≤ (99 : ℚ) / 100) :
    (generateTransaction (generateInvoice startDay supplier customer seq .receivables draw)
        .fx_gain .receivables d).1.amount_eur =
      round2 ((generateInvoice startDay supplier customer seq .receivables draw).total *
        (2 - d.rate)) ∧
    0 < (generateTransaction (generateInvoice startDay supplier customer seq .receivables draw)
        .fx_gain .receivables d).1.amount_eur ∧
    (generateInvoice startDay supplier customer seq .receivables draw).total <
      (generateTransaction (generateInvoice startDay supplier customer seq .receivables draw)
        .fx_gain .receivables d).1.amount_eur := by
  have htotal : 20 ≤ (generateInvoice startDay supplier customer seq .receivables draw).total :=
    generateInvoice_total_ge startDay supplier customer seq .receivables draw hne hval
  set t := (generateInvoice startDay supplier customer seq .receivables draw).total with ht
  have hamt : (generateTransaction (generateInvoice startDay supplier customer seq
      .receivables draw) .fx_gain .receivables d).1.amount_eur =
      (1 : ℚ) * round2 (t * (2 - d.rate)) := rfl
  rw [one_mul] at hamt
  have hmargin : (1 : ℚ) / 100 ≤ 2 - d.rate - 1 := by linarith
  have hprod : t + 1 / 5 ≤ t * (2 - d.rate) := by nlinarith
  have hge := round2_ge (t * (2 - d.rate))
  refine ⟨hamt, ?_, ?_⟩
  · rw [hamt]
    linarith
  · rw [hamt]
    linarith

/-- Concrete draws for the C1 witness. -/
def itemDrawC1 : ItemDraw :=
  { name := "P", basePrice := 100, priceVariation := 1, quantity := 1, taxPick := 1 }

def invoiceDrawC1 : InvoiceDraw :=
  { id := "i2", randomDays := 0, dueOffset := 14, items := [itemDrawC1] }

def txnDrawC1 : TxnDraw :=
  { offset := 3, rate := 95 / 100, counterparty := "C", genericDesc := "" }

/-- C1 witness: a one-item invoice (base price 100, variation 1, quantity 1,
19% tax) with rate 0.95 satisfies every hypothesis. -/
theorem fx_gain_receivables_spec_witness :
    invoiceDrawC1.items ≠ [] ∧
    (∀ it ∈ invoiceDrawC1.items,
      25 ≤ it.basePrice ∧ (8 : ℚ) / 10 ≤ it.priceVariation ∧ 1 ≤ it.quantity) ∧
    (95 : ℚ) / 100 ≤ txnDrawC1.rate ∧ txnDrawC1.rate ≤ (99 : ℚ) / 100 ∧
    (0 < (generateTransaction
        (generateInvoice 0 DEFAULT_COMPANY DEFAULT_COMPANY 100 .receivables invoiceDrawC1)
        .fx_gain .receivables txnDrawC1).1.amount_eur ∧
      (generateInvoice 0 DEFAULT_COMPANY DEFAULT_COMPANY 100 .receivables invoiceDrawC1).total <
        (generateTransaction
          (generateInvoice 0 DEFAULT_COMPANY DEFAULT_COMPANY 100 .receivables invoiceDrawC1)
          .fx_gain .receivables txnDrawC1).1.amount_eur) := by
  have hval : ∀ it ∈ invoiceDrawC1.items,
      25 ≤ it.basePrice ∧ (8 : ℚ) / 10 ≤ it.priceVariation ∧ 1 ≤ it.quantity := by
    intro it hit
    have : it = itemDrawC1 := by
      simpa [invoiceDrawC1] using hit
    subst this
    refine ⟨by norm_num [itemDrawC1], by norm_num [itemDrawC1], by norm_num [itemDrawC1]⟩
  have h := fx_gain_receivables_spec 0 DEFAULT_COMPANY DEFAULT_COMPANY 100
    invoiceDrawC1 txnDrawC1
    (by simp [invoiceDrawC1])
    hval
    (by norm_num [txnDrawC1]) (by norm_num [txnDrawC1])
  exact ⟨by simp [invoiceDrawC1], hval, by norm_num [txnDrawC1], by norm_num [txnDrawC1],
    h.2.1, h.2.2⟩

theorem genGroupInvoices_length (startDay : ℤ) (supplier customer : Company)
    (dir : TransactionDirection) :
    ∀ (seq : ℕ) (ds : List InvoiceDraw),
      (genGroupInvoices startDay supplier customer dir seq ds).length = ds.length
  | _, [] => rfl
  | seq, _ :: ds => by
    simp [genGroupInvoices, genGroupInvoices_length startDay supplier customer dir (seq + 1) ds]

theorem genGroupInvoices_total_isCent (startDay : ℤ) (supplier customer : Company)
    (dir : TransactionDirection) :
    ∀ (seq : ℕ) (ds : List InvoiceDraw) (inv : Invoice),
      inv ∈ genGroupInvoices startDay supplier customer dir seq ds → IsCent inv.total
  | seq, d :: ds, inv, hm => by
    rw [genGroupInvoices, List.mem_cons] at hm
    rcases hm with hm | hm
    · subst hm
      exact isCent_round2 _
    · exact genGroupInvoices_total_isCent startDay supplier customer dir (seq + 1) ds inv hm

theorem sum_isCent : ∀ (l : List ℚ), (∀ x ∈ l, IsCent x) → IsCent l.sum
  | [], _ => by simpa using isCent_zero
  | x :: xs, h => by
    rw [List.sum_cons]
    exact isCent_add (h x (List.mem_cons_self x xs))
      (sum_isCent xs fun y hy => h y (List.mem_cons_of_mem x hy))

theorem foldl_add_totals : ∀ (l : List Invoice) (a : ℚ),
    l.foldl (fun sum inv => sum + inv.total) a = a + (l.map (·.total)).sum
  | [], a => by simp
  | x :: xs, a => by
    rw [List.foldl_cons, foldl_add_totals xs]
    simp [add_assoc]

theorem foldl_latest_spec : ∀ (l : List ℤ) (a : ℤ),
    (l.foldl (fun latest x => if latest < x then x else latest) a = a ∨
      l.foldl (fun latest x => if latest < x then x else latest) a ∈ l) ∧
    a ≤ l.foldl (fun latest x => if latest < x then x else latest) a ∧
    ∀ x ∈ l, x ≤ l.foldl (fun latest x => if latest < x then x else latest) a
  | [], a => ⟨Or.inl rfl, le_refl a, by simp⟩
  | b :: t, a => by
    rw [List.foldl_cons]
    obtain ⟨hmem, hle, hbound⟩ := foldl_latest_spec t (if a < b then b else a)
    have hstep_le_a : a ≤ (if a < b then b else a) := by
      by_cases h : a < b <;> simp [h]
      exact le_of_lt h
    have hstep_le_b : b ≤ (if a < b then b else a) := by
      by_cases h : a < b <;> simp [h]
      omega
    refine ⟨?_, le_trans hstep_le_a hle, ?_⟩
    · rcases hmem with hmem | hmem
      · by_cases h : a < b
        · right
          rw [hmem]
          simp [h]
        · left
          rw [hmem]
          simp [h]
      · right
        exact List.mem_cons_of_mem b hmem
    · intro x hx
      rcases List.mem_cons.mp hx with hx | hx
      · subst hx
        exact le_trans hstep_le_b hle
      · exact hbound x hx

/-- C3: Every group-payment case has `2 ≤ N ≤ 3` invoices with
`metadata.groupedInvoiceCount = N`, a transaction amount equal to the
direction sign times the once-rounded sum of the `N` invoice totals, and a
transaction date equal to the maximum invoice issue date plus the drawn
offset in `[1, 7]`. -/
theorem group_payment_spec (dir : TransactionDirection) (startDay : ℤ)
    (our : Company) (seq0 : ℕ) (ud : UnitDraw)
    (h2 : 2 ≤ ud.invoiceDraws.length) (h3 : ud.invoiceDraws.length ≤ 3)
    (ho1 : 1 ≤ ud.txn.offset) (ho7 : ud.txn.offset ≤ 7) :
    ∃ invs M,
      (generateGroupPaymentTestCase dir startDay our seq0 ud).1.invoices = some invs ∧
      invs.length = ud.invoiceDraws.length ∧
      2 ≤ invs.length ∧ invs.length ≤ 3 ∧
      (generateGroupPaymentTestCase dir startDay our seq0 ud).1.metadata.groupedInvoiceCount =
        some invs.length ∧
      (generateGroupPaymentTestCase dir startDay our seq0 ud).2 = invs.length ∧
      (generateGroupPaymentTestCase dir startDay our seq0 ud).1.transaction.amount_eur =
        (if dir = .payables then (-1 : ℚ) else 1) * round2 ((invs.map (·.total)).sum) ∧
      M ∈ invs.map (·.date) ∧ (∀ x ∈ invs.map (·.date), x ≤ M) ∧
      (generateGroupPaymentTestCase dir startDay our seq0 ud).1.transaction.date =
        formatDate (M + ud.txn.offset) ∧
      1 ≤ ud.txn.offset ∧ ud.txn.offset ≤ 7 := by
  set supplier := if dir = .payables then ud.otherParty else our with hsup
  set customer := if dir = .payables then our else ud.otherParty with hcust
  set invs := genGroupInvoices startDay supplier customer dir seq0 ud.invoiceDraws with hinvs
  have hlen : invs.length = ud.invoiceDraws.length :=
    genGroupInvoices_length startDay supplier customer dir seq0 ud.invoiceDraws
  set M := invs.foldl (fun latest inv => if latest < inv.date then inv.date else latest)
    (invs.headD default).date with hM
  refine ⟨invs, M, rfl, hlen, by omega, by omega, ?_, ?_, ?_, ?_, ?_, rfl, ho1, ho7⟩
  · rw [hlen]
    rfl
  · rw [hlen]
    rfl
  · -- amount: round2 (sign * sum) = sign * round2 sum since the sum is in cents
    have hsumCent : IsCent ((invs.map (·.total)).sum) := by
      apply sum_isCent
      intro x hx
      obtain ⟨inv, hinv, hxeq⟩ := List.mem_map.mp hx
      rw [← hxeq]
      exact genGroupInvoices_total_isCent startDay supplier customer dir seq0
        ud.invoiceDraws inv hinv
    have hfold : invs.foldl (fun sum inv => sum + inv.total) 0 =
        (invs.map (·.total)).sum := by
      rw [foldl_add_totals]
      simp
    show round2 ((if dir = .payables then (-1 : ℚ) else 1) *
        invs.foldl (fun sum inv => sum + inv.total) 0) = _
    rw [hfold]
    cases dir
    · simp only [reduceCtorEq, if_true, reduceIte]
      rw [show ((-1 : ℚ)) * (invs.map (·.total)).sum = -((invs.map (·.total)).sum) by ring,
        round2_of_isCent (isCent_neg hsumCent), round2_of_isCent hsumCent]
      ring
    · simp only [reduceCtorEq, if_false, reduceIte]
      rw [one_mul, one_mul]
  · -- M is one of the invoice dates
    have hne : invs ≠ [] := by
      intro hcon
      rw [hcon] at hlen
      simp at hlen
      omega
    obtain ⟨i0, rest, hcons⟩ := List.exists_cons_of_ne_nil hne
    have hfm : invs.foldl (fun latest inv => if latest < inv.date then inv.date else latest)
        (invs.headD default).date =
        (invs.map (·.date)).foldl (fun latest x => if latest < x then x else latest)
          (invs.headD default).date := by
      rw [List.foldl_map]
    have hspec := foldl_latest_spec (invs.map (·.date)) (invs.headD default).date
    rw [← hfm] at hspec
    rcases hspec.1 with hmem | hmem
    · rw [hM, hmem, hcons]
      simp
    · rw [hM]
      exact hmem
  · -- M bounds every invoice date
    intro x hx
    have hfm : invs.foldl (fun latest inv => if latest < inv.date then inv.date else latest)
        (invs.headD default).date =
        (invs.map (·.date)).foldl (fun latest x => if latest < x then x else latest)
          (invs.headD default).date := by
      rw [List.foldl_map]
    have hspec := foldl_latest_spec (invs.map (·.date)) (invs.headD default).date
    rw [← hfm] at hspec
    exact hspec.2.2 x hx

/-- One-item invoice draw with a fixed price (variation 1, quantity 1, tax
exempt), used by the concrete group-payment witness. -/
def singleItemDraw (nm : String) (bp : ℚ) : ItemDraw :=
  { name := nm, basePrice := bp, priceVariation := 1, quantity := 1, taxPick := 0 }

def singleItemInvoiceDraw (uid : String) (rd : ℤ) (bp : ℚ) : InvoiceDraw :=
  { id := uid, randomDays := rd, dueOffset := 14, items := [singleItemDraw "P" bp] }

/-- Concrete group-payment draws: three invoices with totals `1000.00`,
`1500.50`, `999.49`. -/
def udC3 : UnitDraw :=
  { id := "g1", otherParty := DEFAULT_COMPANY,
    invoiceDraws :=
      [singleItemInvoiceDraw "gi1" 0 1000,
       singleItemInvoiceDraw "gi2" 2 (150050 / 100),
       singleItemInvoiceDraw "gi3" 1 (99949 / 100)],
    txn := { offset := 3, rate := 0, counterparty := "CP", genericDesc := "" } }

/-- C3 witness: the three-invoice group with totals `1000.00`, `1500.50`,
`999.49` yields the aggregate magnitude `3499.99` and
`groupedInvoiceCount = 3`. -/
theorem group_payment_spec_witness :
    2 ≤ udC3.invoiceDraws.length ∧ udC3.invoiceDraws.length ≤ 3 ∧
    1 ≤ udC3.txn.offset ∧ udC3.txn.offset ≤ 7 ∧
    (∃ invs M,
      (generateGroupPaymentTestCase .receivables 0 DEFAULT_COMPANY 100 udC3).1.invoices =
        some invs ∧
      invs.length = udC3.invoiceDraws.length ∧
      2 ≤ invs.length ∧ invs.length ≤ 3 ∧
      (generateGroupPaymentTestCase .receivables 0 DEFAULT_COMPANY 100
        udC3).1.metadata.groupedInvoiceCount = some invs.length ∧
      (generateGroupPaymentTestCase .receivables 0 DEFAULT_COMPANY 100 udC3).2 = invs.length ∧
      (generateGroupPaymentTestCase .receivables 0 DEFAULT_COMPANY 100
        udC3).1.transaction.amount_eur =
        (if (TransactionDirection.receivables : TransactionDirection) = .payables
          then (-1 : ℚ) else 1) * round2 ((invs.map (·.total)).sum) ∧
      M ∈ invs.map (·.date) ∧ (∀ x ∈ invs.map (·.date), x ≤ M) ∧
      (generateGroupPaymentTestCase .receivables 0 DEFAULT_COMPANY 100
        udC3).1.transaction.date = formatDate (M + udC3.txn.offset) ∧
      1 ≤ udC3.txn.offset ∧ udC3.txn.offset ≤ 7) ∧
    (generateGroupPaymentTestCase .receivables 0 DEFAULT_COMPANY 100
      udC3).1.transaction.amount_eur = 349999 / 100 ∧
    (generateGroupPaymentTestCase .receivables 0 DEFAULT_COMPANY 100
      udC3).1.metadata.groupedInvoiceCount = some 3 := by
  refine ⟨by decide, by decide, by decide, by decide,
    group_payment_spec .receivables 0 DEFAULT_COMPANY 100 udC3
      (by decide) (by decide) (by decide) (by decide), ?_, rfl⟩
  norm_num [generateGroupPaymentTestCase, genGroupInvoices, generateInvoice,
    generateInvoiceItems, calculateInvoiceTotals, udC3, singleItemInvoiceDraw, singleItemDraw,
    round2_eq_floor, addDays]
  rw [if_neg (show ¬ ((TransactionDirection.receivables : TransactionDirection) = .payables) by
    simp)]
  norm_num

theorem rowLE_of_dateKey_eq {x b : String} (h : dateKey x = dateKey b) : rowLE x b := by
  rw [rowLE, h]
  exact lexLE_refl _

theorem filter_orderedInsert_eq (k x : String) (l : List String) (hx : dateKey x = k) :
    (List.orderedInsert rowLE x l).filter (fun r => dateKey r == k) =
      x :: l.filter (fun r => dateKey r == k) := by
  induction l with
  | nil => simp [List.orderedInsert, hx]
  | cons b t ih =>
    rw [List.orderedInsert]
    by_cases h : rowLE x b
    · rw [if_pos h]
      simp [List.filter_cons, hx]
    · rw [if_neg h]
      have hb : ¬ (dateKey b = k) := by
        intro hbk
        exact h (rowLE_of_dateKey_eq (hx.trans hbk.symm))
      simp [List.filter_cons, hb, ih]

theorem filter_orderedInsert_ne (k x : String) (l : List String) (hx : ¬ dateKey x = k) :
    (List.orderedInsert rowLE x l).filter (fun r => dateKey r == k) =
      l.filter (fun r => dateKey r == k) := by
  induction l with
  | nil => simp [List.orderedInsert, hx]
  | cons b t ih =>
    rw [List.orderedInsert]
    by_cases h : rowLE x b
    · rw [if_pos h]
      simp [List.filter_cons, hx]
    · rw [if_neg h]
      simp only [List.filter_cons, ih]

/-- Stability of the row sort: for every date key, the sorted rows with that
key appear in exactly their original order. -/
theorem filter_insertionSort (k : String) (l : List String) :
    (List.insertionSort rowLE l).filter (fun r => dateKey r == k) =
      l.filter (fun r => dateKey r == k) := by
  induction l with
  | nil => rfl
  | cons a t ih =>
    rw [List.insertionSort]
    by_cases h : dateKey a = k
    · rw [filter_orderedInsert_eq k a _ h, ih, List.filter_cons, if_pos (by simp [h])]
    · rw [filter_orderedInsert_ne k a _ h, ih, List.filter_cons, if_neg (by simp [h])]

theorem takeWhile_no_semi (xs rest : List Char) (h : ∀ c ∈ xs, c ≠ ';') :
    ((xs ++ ';' :: rest).takeWhile fun c => c ≠ ';') = xs := by
  induction xs with
  | nil => simp [List.takeWhile]
  | cons c cs ih =>
    have hc : c ≠ ';' := h c (List.mem_cons_self c cs)
    rw [List.cons_append, List.takeWhile_cons, if_pos (by simp [hc]),
      ih fun x hx => h x (List.mem_cons_of_mem c hx)]

/-- The sort key of a serialized row is exactly the transaction's date field
(dates never contain the `;` delimiter). -/
theorem dateKey_rowOf (t : BankTransaction) (h : ∀ c ∈ t.date.data, c ≠ ';') :
    dateKey (rowOf t) = t.date := by
  unfold dateKey rowOf
  have hdata : (t.date ++ ";" ++ t.counterparty ++ ";" ++ t.description ++ ";" ++
      jsNumRepr t.amount_eur).data =
      t.date.data ++ ';' :: (t.counterparty.data ++ ';' :: (t.description.data ++ ';' ::
        (jsNumRepr t.amount_eur).data)) := by
    simp [String.data_append]
  rw [hdata, takeWhile_no_semi _ _ h]

/-- C5: The CSV text is the newline join of the exact header
`date;counterparty;description;amount_eur` followed by one serialized row
per test case, with the rows stably sorted ascending by their date key: the
output has one row per case, is pairwise non-decreasing on the date key, and
rows with equal date keys keep their original generation order. -/
theorem generateCSV_spec (testCases : List TestCase) :
    generateCSV testCases =
      "\n".intercalate ("date;counterparty;description;amount_eur" ::
        List.insertionSort rowLE (testCases.map fun tc => rowOf tc.transaction)) ∧
    (List.insertionSort rowLE (testCases.map fun tc => rowOf tc.transaction)).length =
      testCases.length ∧
    List.Sorted rowLE
      (List.insertionSort rowLE (testCases.map fun tc => rowOf tc.transaction)) ∧
    (∀ k : String,
      (List.insertionSort rowLE (testCases.map fun tc => rowOf tc.transaction)).filter
          (fun r => dateKey r == k) =
        (testCases.map fun tc => rowOf tc.transaction).filter (fun r => dateKey r == k)) ∧
    (∀ t : BankTransaction, (∀ c ∈ t.date.data, c ≠ ';') → dateKey (rowOf t) = t.date) := by
  refine ⟨rfl, ?_, List.sorted_insertionSort rowLE _, fun k => filter_insertionSort k _,
    fun t ht => dateKey_rowOf t ht⟩
  rw [(List.perm_insertionSort rowLE _).length_eq, List.length_map]

/-- C5 witness: a `YYYY-MM-DD` date contains no delimiter, and the serialized
row's sort key is exactly that date. -/
theorem generateCSV_spec_witness :
    (∀ c ∈ ("2025-01-02" : String).data, c ≠ ';') ∧
    dateKey (rowOf
      { date := "2025-01-02", counterparty := "A", description := "D", amount_eur := 1 }) =
      "2025-01-02" := by
  have h := generateCSV_spec []
  exact ⟨by decide, h.2.2.2.2 _ (by decide)⟩

theorem mem_dedupFirst {x : String} : ∀ {l : List String}, x ∈ dedupFirst l ↔ x ∈ l := by
  intro l
  induction l using dedupFirst.induct with
  | case1 => simp [dedupFirst]
  | case2 a t ih =>
    rw [dedupFirst]
    by_cases hxa : x = a
    · subst hxa
      simp
    · simp only [List.mem_cons, hxa, false_or]
      rw [ih]
      simp [hxa]

theorem nodup_dedupFirst : ∀ (l : List String), (dedupFirst l).Nodup := by
  intro l
  induction l using dedupFirst.induct with
  | case1 => simp [dedupFirst]
  | case2 a t ih =>
    rw [dedupFirst]
    refine List.nodup_cons.mpr ⟨?_, ih⟩
    rw [mem_dedupFirst]
    simp

/-- C8: For every base name and legal suffix, the generated name-variation
list contains no duplicates, and whenever the base name is longer than 10
characters it contains the base name truncated to its first 10 characters
and uppercased. -/
theorem nameVariations_spec (baseName legalSuffix : String) :
    (generateNameVariations baseName legalSuffix).Nodup ∧
    (baseName.length > 10 →
      toUpperStr (baseName.take 10) ∈ generateNameVariations baseName legalSuffix) := by
  constructor
  · exact nodup_dedupFirst _
  · intro hlen
    unfold generateNameVariations
    rw [mem_dedupFirst]
    simp only [hlen, if_pos]
    simp

/-- C8 witness: `"TechSolutions"` (13 characters) with suffix `"GmbH"`. -/
theorem nameVariations_spec_witness :
    (generateNameVariations "TechSolutions" "GmbH").Nodup ∧
    ("TechSolutions".length > 10) ∧
    toUpperStr ("TechSolutions".take 10) ∈ generateNameVariations "TechSolutions" "GmbH" :=
  ⟨(nameVariations_spec "TechSolutions" "GmbH").1, by decide,
    (nameVariations_spec "TechSolutions" "GmbH").2 (by decide)⟩

/-- Concrete invoice whose number contains no digits. -/
def badInvoiceC9 : Invoice :=
  { id := "tc-bad", number := "NODIGITS", date := 20000, dueDate := 20014,
    supplier := DEFAULT_COMPANY, customer := DEFAULT_COMPANY, items := [], subtotal := 0,
    taxTotal := 0, total := 0, currency := "EUR", note := "n" }

/-- C9 counterexample: for an invoice number with no digits,
`parseInt(number.replace(/\D/g, ''), 10)` is `NaN` (modelled `none`), so the
produced `number` field holds no safe fallback value such as `0`. -/
theorem invoiceToPDFData_counterexample :
    (invoiceToPDFData badInvoiceC9).invoice.number = none ∧
    (invoiceToPDFData badInvoiceC9).invoice.number ≠ some 0 := by
  exact ⟨by decide, by decide⟩

/-- C9 amended: the conversion is total (it never aborts), but there is no
local guard: whenever the invoice number contains no digits, the produced
`number` field is `NaN` (modelled `none`) — neither `0` nor the raw string —
while the remaining fields are still produced from the invoice. -/
theorem invoiceToPDFData_amended (inv : Invoice) (h : digitsOnly inv.number = "") :
    (invoiceToPDFData inv).invoice.number = none ∧
    (invoiceToPDFData inv).note = inv.note ∧
    (invoiceToPDFData inv).invoice.currency = inv.currency := by
  have hdata : (digitsOnly inv.number).data = [] := by
    rw [h]
  refine ⟨?_, rfl, rfl⟩
  show parseInt10 (digitsOnly inv.number) = none
  unfold parseInt10
  rw [hdata]
  simp [parseDigits]

/-- C9 amended witness: the `"NODIGITS"` invoice satisfies the hypothesis. -/
theorem invoiceToPDFData_amended_witness :
    digitsOnly badInvoiceC9.number = "" ∧
    ((invoiceToPDFData badInvoiceC9).invoice.number = none ∧
      (invoiceToPDFData badInvoiceC9).note = badInvoiceC9.note ∧
      (invoiceToPDFData badInvoiceC9).invoice.currency = badInvoiceC9.currency) :=
  ⟨by decide, invoiceToPDFData_amended badInvoiceC9 (by decide)⟩

/-- Concrete request with a non-chronological date range: end day 50 strictly
precedes start day 100. -/
def reqC7 : GenReq :=
  { cases := some [{ type := .perfect_match, label := "PM", description := "d", quantity := 1 }],
    direction := some .payables, dateRange := some (some 100, some 50),
    myCompany := none, customerCompany := none }

def udC7 : UnitDraw :=
  { id := "u1", otherParty := DEFAULT_COMPANY,
    invoiceDraws := [singleItemInvoiceDraw "i1" 0 100],
    txn := { offset := 1, rate := 0, counterparty := "CP", genericDesc := "" } }

/-- C7 counterexample: the handler performs no end-before-start check — a
request whose date-range end (day 50) precedes its start (day 100) is not
rejected, and a suite containing one generated test case is returned. -/
theorem handleGenerate_counterexample :
    (handleGenerate reqC7 "s1" "t1" 100 [udC7]).isOk = true ∧
    ((handleGenerate reqC7 "s1" "t1" 100 [udC7]).toOption.map fun s => s.cases.length) =
      some 1 := by
  exact ⟨rfl, rfl⟩

/-- C7 amended: the handler rejects an empty case list and a missing or
incomplete date range with a client-fault 400 before any generation (for
every random draw); it performs no non-chronological (end before start)
check. -/
theorem handleGenerate_validation_spec (req : GenReq) (suiteId createdAt : String)
    (seq0 : ℕ) (draws : List UnitDraw)
    (h : req.cases = none ∨ req.cases = some [] ∨ req.dateRange = none ∨
      (∃ s e, req.dateRange = some (s, e) ∧ (s = none ∨ e = none))) :
    ∃ msg, handleGenerate req suiteId createdAt seq0 draws = Except.error (msg, 400) := by
  rcases h with h | h | h | ⟨s, e, hdr, hse⟩
  · exact ⟨"No test cases specified", by simp [handleGenerate, h]⟩
  · exact ⟨"No test cases specified", by simp [handleGenerate, h]⟩
  · match hc : req.cases with
    | none => exact ⟨"No test cases specified", by simp [handleGenerate, hc]⟩
    | some cs =>
      by_cases hlen : cs.length = 0
      · exact ⟨"No test cases specified", by simp [handleGenerate, hc, hlen]⟩
      · exact ⟨"Date range is required", by simp [handleGenerate, hc, hlen, h]⟩
  · match hc : req.cases with
    | none => exact ⟨"No test cases specified", by simp [handleGenerate, hc]⟩
    | some cs =>
      by_cases hlen : cs.length = 0
      · exact ⟨"No test cases specified", by simp [handleGenerate, hc, hlen]⟩
      · rcases hse with hse | hse
        · subst hse
          exact ⟨"Date range is required", by simp [handleGenerate, hc, hlen, hdr]⟩
        · subst hse
          refine ⟨"Date range is required", ?_⟩
          cases s with
          | none => simp [handleGenerate, hc, hlen, hdr]
          | some sv => simp [handleGenerate, hc, hlen, hdr]

/-- C7 amended witness: the empty request is rejected with a 400. -/
theorem handleGenerate_validation_spec_witness :
    (({} : GenReq).cases = none ∨ ({} : GenReq).cases = some [] ∨
      ({} : GenReq).dateRange = none ∨
      (∃ s e, ({} : GenReq).dateRange = some (s, e) ∧ (s = none ∨ e = none))) ∧
    ∃ msg, handleGenerate {} "s" "t" 1 [] = Except.error (msg, 400) :=
  ⟨Or.inl rfl, handleGenerate_validation_spec {} "s" "t" 1 [] (Or.inl rfl)⟩

/-- Every case the assembler loop emits carries the requested direction and
uses `ourCompany` as customer (payables) or supplier (receivables), provided
each consumed draw carries at least one invoice draw. -/
theorem runUnits_own_company (dir : TransactionDirection) (startDay : ℤ) (our : Company) :
    ∀ (units : List TestCaseType) (seq : ℕ) (draws : List UnitDraw),
      (∀ ud ∈ draws, ud.invoiceDraws ≠ []) →
      units.length ≤ draws.length →
      ∀ tc ∈ runUnits dir startDay our units seq draws,
        tc.direction = dir ∧
        (if dir = .payables then tc.invoice.customer else tc.invoice.supplier) = our := by
  intro units
  induction units with
  | nil =>
    intro seq draws _ _ tc htc
    simp [runUnits] at htc
  | cons t rest ih =>
    intro seq draws hdr hlen tc htc
    cases draws with
    | nil => simp at hlen
    | cons d0 dtail =>
      have hdr0 : d0.invoiceDraws ≠ [] := hdr d0 (List.mem_cons_self d0 dtail)
      have hdrt : ∀ ud ∈ dtail, ud.invoiceDraws ≠ [] :=
        fun ud hud => hdr ud (List.mem_cons_of_mem d0 hud)
      have hlent : rest.length ≤ dtail.length := by
        simpa using Nat.le_of_succ_le_succ hlen
      rw [runUnits] at htc
      by_cases hg : t = .group_payment
      · rw [if_pos hg] at htc
        rcases List.mem_cons.mp htc with htc | htc
        · subst htc
          refine ⟨rfl, ?_⟩
          obtain ⟨i0, irest, hi⟩ := List.exists_cons_of_ne_nil hdr0
          cases dir with
          | payables =>
            simp [generateGroupPaymentTestCase, hi, genGroupInvoices, generateInvoice]
          | receivables =>
            simp [generateGroupPaymentTestCase, hi, genGroupInvoices, generateInvoice]
        · exact ih _ dtail hdrt hlent tc htc
      · rw [if_neg hg] at htc
        rcases List.mem_cons.mp htc with htc | htc
        · subst htc
          refine ⟨rfl, ?_⟩
          cases dir with
          | payables => simp [generateTestCase, generateInvoice]
          | receivables => simp [generateTestCase, generateInvoice]
        · exact ih _ dtail hdrt hlent tc htc

/-- C10: The handler forwards `body.myCompany` as the company override, so a
request that supplies the documented `customerCompany` field and no
`myCompany` behaves exactly as one with no override at all, and every case
of the generated suite uses the default company as the caller's own company
(customer for payables, supplier for receivables). -/
theorem customerCompany_never_applied (cs : List TestCaseConfig)
    (dirOpt : Option TransactionDirection) (s e : ℤ) (cust : Option CompanyOverride)
    (suiteId createdAt : String) (seq0 : ℕ) (draws : List UnitDraw)
    (hdr : ∀ ud ∈ draws, ud.invoiceDraws ≠ [])
    (hlen : (unitsOf cs).length ≤ draws.length) :
    handleGenerate
      { cases := some cs, direction := dirOpt, dateRange := some (some s, some e),
        myCompany := none, customerCompany := cust } suiteId createdAt seq0 draws =
      handleGenerate
        { cases := some cs, direction := dirOpt, dateRange := some (some s, some e),
          myCompany := none, customerCompany := none } suiteId createdAt seq0 draws ∧
    ∀ suite,
      handleGenerate
        { cases := some cs, direction := dirOpt, dateRange := some (some s, some e),
          myCompany := none, customerCompany := cust } suiteId createdAt seq0 draws =
        Except.ok suite →
      ∀ tc ∈ suite.cases,
        (if tc.direction = .payables then tc.invoice.customer else tc.invoice.supplier) =
          DEFAULT_COMPANY := by
  refine ⟨rfl, ?_⟩
  intro suite hok tc htc
  by_cases hcs : cs.length = 0
  · simp [handleGenerate, hcs] at hok
  · simp only [handleGenerate, hcs, if_neg, if_false, Except.ok.injEq] at hok
    have hcases : suite.cases =
        runUnits (dirOpt.getD .payables) s DEFAULT_COMPANY (unitsOf cs) seq0 draws := by
      rw [← hok]
      rfl
    rw [hcases] at htc
    have h := runUnits_own_company (dirOpt.getD .payables) s DEFAULT_COMPANY
      (unitsOf cs) seq0 draws hdr hlen tc htc
    rw [h.1]
    exact h.2

/-- Concrete draws for the C10 witness. -/
def udC10 : UnitDraw :=
  { id := "u10", otherParty := DEFAULT_COMPANY,
    invoiceDraws := [singleItemInvoiceDraw "i10" 0 100],
    txn := { offset := 1, rate := 0, counterparty := "CP", genericDesc := "" } }

def cfgPM : TestCaseConfig :=
  { type := .perfect_match, label := "PM", description := "d", quantity := 1 }

def reqC10 (cust : Option CompanyOverride) : GenReq :=
  { cases := some [cfgPM], direction := some .payables, dateRange := some (some 0, some 30),
    myCompany := none, customerCompany := cust }

/-- C10 witness: one perfect-match case with a `customerCompany` override
supplied and `myCompany` absent. -/
theorem customerCompany_never_applied_witness :
    (∀ ud ∈ [udC10], ud.invoiceDraws ≠ []) ∧
    (unitsOf [cfgPM]).length ≤ ([udC10] : List UnitDraw).length ∧
    (handleGenerate (reqC10 (some { name := some "Override Inc" })) "s" "t" 1 [udC10] =
      handleGenerate (reqC10 none) "s" "t" 1 [udC10]) := by
  have h := customerCompany_never_applied [cfgPM] (some .payables) 0 30
    (some { name := some "Override Inc" }) "s" "t" 1 [udC10]
    (by decide) (by decide)
  exact ⟨by decide, by decide, h.1⟩
